import Mathlib

/-!
Shallow embedding of the NATS Go client (src/unnamed/part_001, package nats,
Version 0.68).  Go uint64 counters are modelled as Nat: every operation below
increments them by one message or by a payload length, so 64-bit wraparound is
unreachable for the executions the claims quantify over and is not modelled.
Pointers that the code only compares against nil (sub.conn, sub.mcb, nc.conn)
are modelled as Bool flags; nilable channels and buffers are Option values.
Go channels (sub.mch, nc.pongs entries) are modelled as FIFO lists; a channel
value held by a waiter is identified by a Nat tag.
-/

namespace Nats

/-- Connection status, from the Status constants of the source. -/
inductive Status where
  | DISCONNECTED
  | CONNECTED
  | CLOSED
  | RECONNECTING
deriving DecidableEq, Repr

/-- Error values of the source (the var block of errors.New values plus the
inline errors.New calls in NextMsg, FlushTimeout and processExpectedInfo).
The source has no value for a reconnect-buffer bound or a max-payload bound;
none exists in this file of the code, which is what claims C8 and C9 turn on. -/
inductive NatsError where
  | connectionClosed
  | secureConnRequired
  | secureConnWanted
  | badSubscription
  | slowConsumer
  | timeout
  | illegalAsyncCall
  | maxMessagesDelivered
  | badTimeout
  | protocolError
deriving DecidableEq, Repr

/-- Msg structure of the source: subject, optional reply, payload bytes.
The Sub back-pointer is dropped: in the per-subscription model below the
owning subscription is the one holding the mailbox. Payload bytes are Nat. -/
structure Msg where
  Subject : String
  Reply   : String
  Data    : List Nat
deriving DecidableEq, Repr

/-- Subscription structure of the source.  connValid models conn != nil and
hasMcb models mcb != nil; mch is the mailbox channel, none when nil/closed. -/
structure Subscription where
  sid       : Nat
  Subject   : String
  Queue     : String
  msgs      : Nat
  delivered : Nat
  bytes     : Nat
  max       : Nat
  connValid : Bool
  hasMcb    : Bool
  mch       : Option (List Msg)
  sc        : Bool
deriving DecidableEq, Repr

instance : Inhabited Subscription :=
  ⟨{ sid := 0, Subject := "", Queue := "", msgs := 0, delivered := 0, bytes := 0,
     max := 0, connValid := false, hasMcb := false, mch := none, sc := false }⟩

/-- Protocol units written to the buffered writer, one constructor per proto
format string of the source (conProto, pingProto, pongProto, pubProto,
subProto, unsubProto).  unsub carries the maxStr argument: none for the
empty string, some n for strconv.Itoa(n). -/
inductive ProtoLine where
  | connectLine
  | ping
  | pong
  | sub (subject queue : String) (sid : Nat)
  | unsub (sid : Nat) (maxArg : Option Nat)
  | pub (subject reply : String) (size : Nat) (payload : List Nat)
deriving DecidableEq, Repr

/-- Connection structure of the source.  bw is the content buffered in the
bufio writer, wire the content already flushed to its current underlying sink
(the socket when connected, the pending bytes.Buffer while reconnecting);
pongs is the FIFO of flush waiters where a none entry is a slot voided by
removeFlushEntry.  maxPayload is serverInfo.MaxPayload (int64). -/
structure Conn where
  status           : Status
  connActive       : Bool
  InMsgs           : Nat
  OutMsgs          : Nat
  InBytes          : Nat
  OutBytes         : Nat
  Reconnects       : Nat
  maxPayload       : Int
  subs             : List Subscription
  pongs            : List (Option Nat)
  bw               : List ProtoLine
  wire             : List ProtoLine
  pending          : Option (List ProtoLine)
  hasAsyncErrorCB  : Bool
  hasClosedCB      : Bool
  hasDisconnectedCB : Bool
  hasReconnectedCB : Bool
  err              : Option NatsError
deriving DecidableEq, Repr

/-- Mailbox channel capacity, constant maxChanLen of the source. -/
def maxChanLen : Nat := 8192

/-- Size of the bufio writer installed over the pending buffer while
reconnecting, constant defaultPendingSize of the source. -/
def defaultPendingSize : Nat := 1024 * 1024

/-- Length of an optional mailbox; a nil channel holds nothing. -/
def mlen : Option (List Msg) → Nat
  | none => 0
  | some l => l.length

/-- Replace every registry entry carrying the sid of s2 by s2. The Go registry
is a map of pointers, so mutating a subscription updates it in place; sids are
unique in a real registry, making this the in-place update. -/
def updateSub (subs : List Subscription) (s2 : Subscription) : List Subscription :=
  subs.map (fun t => if t.sid == s2.sid then s2 else t)

/-- processSlowConsumer of the source: set the sc flag on the subscription,
record ErrSlowConsumer on the connection, and fire the async error handler if
one is registered.  The third component lists the (sid, error) deliveries
made to the handler. -/
def processSlowConsumer (nc : Conn) (s : Subscription) :
    Conn × Subscription × List (Nat × NatsError) :=
  let s2 := { s with sc := true }
  let nc2 := { nc with err := some NatsError.slowConsumer }
  (nc2, s2, if nc.hasAsyncErrorCB then [(s2.sid, NatsError.slowConsumer)] else [])

/-- processMsg of the source, starting after the control-line parse and the
payload read (the claims address the dispatch logic, not the Sscanf parse).
Updates connection stats, looks up the subscription, applies the max filter,
updates subscription stats, and enqueues into the mailbox unless it is at
capacity, in which case processSlowConsumer runs.  Returns the new connection
and the async error deliveries fired. -/
def processMsg (nc : Conn) (subj : String) (sid : Nat) (reply : String)
    (payload : List Nat) : Conn × List (Nat × NatsError) :=
  let nc1 := { nc with InMsgs := nc.InMsgs + 1, InBytes := nc.InBytes + payload.length }
  match nc1.subs.find? (fun s => s.sid == sid) with
  | none => (nc1, [])
  | some sub =>
    if sub.max > 0 ∧ sub.msgs > sub.max then
      (nc1, [])
    else
      let sub1 := { sub with msgs := sub.msgs + 1, bytes := sub.bytes + payload.length }
      let m : Msg := { Subject := subj, Reply := reply, Data := payload }
      match sub1.mch with
      | none => ({ nc1 with subs := updateSub nc1.subs sub1 }, [])
      | some box =>
        if box.length ≥ maxChanLen then
          let r := processSlowConsumer nc1 sub1
          ({ r.1 with subs := updateSub r.1.subs r.2.1 }, r.2.2)
        else
          let sub2 := { sub1 with sc := false, mch := some (box ++ [m]) }
          ({ nc1 with subs := updateSub nc1.subs sub2 }, [])

/-- Single iteration of the deliverMsgs loop of the source for the
subscription owning the channel: receive one message (none available, or the
channel closed, means the iteration does nothing here); skip it when the
subscription is invalid or has no callback; otherwise increment delivered and
invoke the callback unless delivered exceeds a positive max.  The second
component is the message handed to the callback, if any. -/
def deliverMsgStep (s : Subscription) : Subscription × Option Msg :=
  match s.mch with
  | none => (s, none)
  | some [] => (s, none)
  | some (m :: rest) =>
    let s1 := { s with mch := some rest }
    if s1.connValid = false ∨ s1.hasMcb = false then
      (s1, none)
    else
      let s2 := { s1 with delivered := s1.delivered + 1 }
      if s2.max = 0 ∨ s2.delivered ≤ s2.max then (s2, some m) else (s2, none)

/-- Outcome of the select at the end of NextMsg: a receive fires (only
possible when the mailbox holds a message), the channel is closed while
waiting, or the deadline timer fires first. -/
inductive RecvEvent where
  | deliver
  | chanClosed
  | timerFired
deriving DecidableEq, Repr

/-- Result of NextMsg: a message or an error. -/
inductive NextMsgRes where
  | msg (m : Msg)
  | fail (e : NatsError)
deriving DecidableEq, Repr

/-- NextMsg of the source.  Guard order follows the code: nil mailbox, then
async callback, then nil conn, then the slow-consumer flag (cleared when
reported); then the select, where a successful receive increments delivered
and reports the max-messages error when a positive max is exceeded.  A
deliver event with an empty mailbox cannot occur in the code (a receive only
fires when the channel holds a message); the model lets the timer resolve it. -/
def NextMsg (s : Subscription) (ev : RecvEvent) : Subscription × NextMsgRes :=
  match s.mch with
  | none => (s, NextMsgRes.fail NatsError.connectionClosed)
  | some box =>
    if s.hasMcb then (s, NextMsgRes.fail NatsError.illegalAsyncCall)
    else if s.connValid = false then (s, NextMsgRes.fail NatsError.badSubscription)
    else if s.sc then ({ s with sc := false }, NextMsgRes.fail NatsError.slowConsumer)
    else
      match ev, box with
      | RecvEvent.deliver, m :: rest =>
        let s1 := { s with mch := some rest, delivered := s.delivered + 1 }
        if s1.max > 0 ∧ s1.delivered > s1.max then
          (s1, NextMsgRes.fail NatsError.maxMessagesDelivered)
        else
          (s1, NextMsgRes.msg m)
      | RecvEvent.chanClosed, _ => (s, NextMsgRes.fail NatsError.connectionClosed)
      | _, _ => (s, NextMsgRes.fail NatsError.timeout)

/-- publish of the source: error when the connection is closed, otherwise
append the PUB protocol line and the payload to the buffered writer, bump
OutMsgs and OutBytes, and return nil.  The code performs no payload-size
check of any kind.  The write error the code would propagate can only come
from the underlying sink of the writer; the buffered sinks modelled here (socket
buffer, pending bytes.Buffer) accept writes without error, matching the Go
bytes.Buffer behaviour, so the only error path left is the closed check. -/
def publish (nc : Conn) (subj reply : String) (data : List Nat) :
    Conn × Option NatsError :=
  if nc.status = Status.CLOSED then
    (nc, some NatsError.connectionClosed)
  else
    ({ nc with
        bw := nc.bw ++ [ProtoLine.pub subj reply data.length data]
        OutMsgs := nc.OutMsgs + 1
        OutBytes := nc.OutBytes + data.length }, none)

/-- FlushTimeout of the source up to its suspension point (the select): reject
a non-positive timeout, reject a closed connection, otherwise append one fresh
waiter channel ch to the pongs queue, write PING into the buffered writer and
flush it synchronously.  timeout is the duration argument in nanoseconds. -/
def flushTimeoutEnqueue (nc : Conn) (timeout : Int) (ch : Nat) :
    Conn × Option NatsError :=
  if timeout ≤ 0 then (nc, some NatsError.badTimeout)
  else if nc.status = Status.CLOSED then (nc, some NatsError.connectionClosed)
  else
    ({ nc with
        pongs := nc.pongs ++ [some ch]
        bw := []
        wire := nc.wire ++ nc.bw ++ [ProtoLine.ping] }, none)

/-- processPong of the source.  The code reads nc.pongs[0] unconditionally and
then drops it; on an empty queue that index expression is out of bounds (a Go
runtime panic), modelled as none.  Otherwise the head entry is removed and the
channel in it, when the slot was not voided, is signalled: the second
component of the result is that channel. -/
def processPong (nc : Conn) : Option (Conn × Option Nat) :=
  match nc.pongs with
  | [] => none
  | ch :: rest => some ({ nc with pongs := rest }, ch)

/-- removeFlushEntry of the source: void (set to nil) the first slot holding
channel ch, reporting whether a slot was found. -/
def removeFlushEntry (nc : Conn) (ch : Nat) : Conn × Bool :=
  match go nc.pongs with
  | (q, found) => ({ nc with pongs := q }, found)
where
  go : List (Option Nat) → List (Option Nat) × Bool
    | [] => ([], false)
    | c :: rest =>
      if c == some ch then ((none : Option Nat) :: rest, true)
      else
        let r := go rest
        (c :: r.1, r.2)

/-- resendSubscriptions of the source: for every subscription in the registry
write its SUB line and, when max is positive, an UNSUB line carrying
strconv.Itoa(int(s.max)), the stored max itself. -/
def resendSubscriptions (subs : List Subscription) : List ProtoLine :=
  subs.flatMap (fun s =>
    ProtoLine.sub s.Subject s.Queue s.sid ::
      (if s.max > 0 then [ProtoLine.unsub s.sid (some s.max)] else []))

/-- processReconnect of the source: unless already closed, move to
RECONNECTING, flush the buffered writer to the socket and drop the socket,
then install a fresh empty pending bytes.Buffer and rebind the buffered
writer over it (the model empties bw and resets wire for the new sink), and
start doReconnect.  The Bool reports whether the disconnected callback runs. -/
def processReconnect (nc : Conn) : Conn × Bool :=
  let nc2 :=
    if nc.status = Status.CLOSED then nc
    else
      { nc with
          status := Status.RECONNECTING
          connActive := false
          bw := []
          wire := []
          pending := some [] }
  (nc2, nc.hasDisconnectedCB)

/-- Outcome of one dial attempt inside doReconnect: the dial fails, or it
succeeds and the subsequent processExpectedInfo either succeeds or fails. -/
inductive DialOutcome where
  | fail
  | ok (infoOk : Bool)
deriving DecidableEq, Repr

/-- doReconnect of the source, with the outcome of each of the up to
MaxReconnect dial attempts supplied as an oracle list.  A failed attempt
clears nc.err and retries.  A successful dial moves the buffered content into
the pending buffer and rebinds the writer to the socket (createConn), bumps
Reconnects, and, when the expected INFO is processed, sets CONNECTED, writes
CONNECT, replays the subscriptions, drains the pending buffer, and returns;
after any successful dial the function returns (with the reconnected callback
when registered, reported in the Bool).  When the attempts are exhausted the
loop simply falls out: nothing else happens. -/
def doReconnect (nc : Conn) : List DialOutcome → Conn × Bool
  | [] => (nc, false)
  | d :: rest =>
    if nc.status = Status.CLOSED then (nc, false)
    else
      match d with
      | DialOutcome.fail => doReconnect { nc with err := none } rest
      | DialOutcome.ok infoOk =>
        let pend := nc.pending.getD [] ++ nc.bw
        let nc1 := { nc with
            connActive := true, err := none, bw := [],
            pending := some pend,
            Reconnects := nc.Reconnects + 1 }
        if infoOk then
          let nc2 := { nc1 with
              status := Status.CONNECTED
              bw := ProtoLine.connectLine :: resendSubscriptions nc1.subs ++ pend
              pending := none }
          (nc2, nc2.hasReconnectedCB)
        else
          ({ nc1 with err := some NatsError.protocolError }, nc1.hasReconnectedCB)

/-- Events acting on the flush-waiter queue: a FlushTimeout call appending a
waiter (with its PING), or an inbound PONG processed by processPong. -/
inductive PongEvent where
  | flush (ch : Nat)
  | pong
deriving DecidableEq, Repr

/-- Run a trace of flush calls and inbound PONGs over a connection, built
directly from flushTimeoutEnqueue and processPong; none records that some
PONG hit processPong with an empty waiter queue (the out-of-bounds access). -/
def runPongTrace (nc : Conn) : List PongEvent → Option Conn
  | [] => some nc
  | PongEvent.flush ch :: es => runPongTrace (flushTimeoutEnqueue nc 1 ch).1 es
  | PongEvent.pong :: es =>
    match processPong nc with
    | none => none
    | some r => runPongTrace r.1 es

/-- Number of pong events in a trace. -/
def pongEvents : List PongEvent → Nat
  | [] => 0
  | PongEvent.pong :: es => pongEvents es + 1
  | PongEvent.flush _ :: es => pongEvents es

/-- Number of flush events in a trace. -/
def flushEvents : List PongEvent → Nat
  | [] => 0
  | PongEvent.pong :: es => flushEvents es
  | PongEvent.flush _ :: es => flushEvents es + 1

/-- Subscription as created by subscribe of the source: zero counters, no max,
valid connection back-pointer, a fresh empty mailbox, and the callback flag as
given (the sid comes from the atomic counter of the connection). -/
def newSub (sid : Nat) (subj queue : String) (hasCb : Bool) : Subscription :=
  { sid := sid, Subject := subj, Queue := queue, msgs := 0, delivered := 0,
    bytes := 0, max := 0, connValid := true, hasMcb := hasCb, mch := some [],
    sc := false }

/-- unsubscribe of the source, keyed by the sid of the subscription argument:
error when closed; no-op when the sid is no longer registered; for a positive
max (AutoUnsubscribe) record max on the subscription, otherwise remove the
subscription from the registry, closing and nilling its mailbox; finally,
unless reconnecting, write the UNSUB line (maxStr empty for the removal
case). -/
def unsubscribe (nc : Conn) (sid : Nat) (max : Nat) : Conn × Option NatsError :=
  if nc.status = Status.CLOSED then (nc, some NatsError.connectionClosed)
  else
    match nc.subs.find? (fun t => t.sid == sid) with
    | none => (nc, none)
    | some s =>
      let nc2 :=
        if max > 0 then
          { nc with subs := updateSub nc.subs { s with max := max } }
        else
          { nc with subs := nc.subs.filter (fun t => !(t.sid == sid)) }
      if nc2.status = Status.RECONNECTING then (nc2, none)
      else
        ({ nc2 with
            bw := nc2.bw ++
              [ProtoLine.unsub s.sid (if max > 0 then some max else none)] }, none)

/-- Counter invariant of a subscription: the delivered count plus what still
sits in the mailbox never exceeds the enqueued count, and with a positive max
the enqueued count never exceeds max plus one (the processMsg filter compares
before incrementing, so one message beyond max always gets through). -/
def subInv (s : Subscription) : Prop :=
  s.delivered + mlen s.mch ≤ s.msgs ∧ (0 < s.max → s.msgs ≤ s.max + 1)

instance (s : Subscription) : Decidable (subInv s) := by
  unfold subInv; infer_instance

/-- Baseline connected state used by the concrete scenarios below. -/
def connBase : Conn :=
  { status := Status.CONNECTED, connActive := true,
    InMsgs := 0, OutMsgs := 0, InBytes := 0, OutBytes := 0, Reconnects := 0,
    maxPayload := 1048576, subs := [], pongs := [], bw := [], wire := [],
    pending := none, hasAsyncErrorCB := false, hasClosedCB := false,
    hasDisconnectedCB := false, hasReconnectedCB := false, err := none }

/-- Registry state for the C1 scenario: a subscription on foo with sid 7,
max 10 and 3 messages already delivered at replay time. -/
def c1sub : Subscription :=
  { newSub 7 "foo" "" false with max := 10, msgs := 3, delivered := 3, bytes := 3 }

/-- C2 and C4 scenario, step 0: connect, subscribe synchronously to foo
(sid 1), then AutoUnsubscribe(1), leaving max = 1 on the registered
subscription. -/
def c2conn0 : Conn :=
  (unsubscribe { connBase with subs := [newSub 1 "foo" "" false] } 1 1).1

/-- C2 and C4 scenario after one inbound message for sid 1. -/
def c2connA : Conn := (processMsg c2conn0 "foo" 1 "" [97]).1

/-- The registered subscription after one message: msgs = 1 = max. -/
def c2subA : Subscription := c2connA.subs.headI

/-- C2 and C4 scenario after a second inbound message for sid 1: the message
passes the max filter because the comparison happens before the increment. -/
def c2connB : Conn := (processMsg c2connA "foo" 1 "" [98]).1

/-- The registered subscription after two messages: msgs = 2, mailbox holds
both. -/
def c2subB : Subscription := c2connB.subs.headI

/-- C2 scenario after one NextMsg receive: delivered = 1 = max. -/
def c2subC : Subscription := (NextMsg c2subB RecvEvent.deliver).1

/-- C2 scenario after a second NextMsg receive: delivered = 2 exceeds
max = 1 even though NextMsg reports the max-messages error. -/
def c2subD : Subscription := (NextMsg c2subC RecvEvent.deliver).1

/-- Payload of the messages used in the C3 scenario. -/
def c3msg : Msg := { Subject := "foo", Reply := "", Data := [0] }

/-- Synchronous subscription whose mailbox already holds maxChanLen = 8192
messages (the counters reflect those 8192 enqueues). -/
def c3sub : Subscription :=
  { newSub 1 "foo" "" false with
      mch := some (List.replicate maxChanLen c3msg),
      msgs := maxChanLen, bytes := maxChanLen }

/-- Connection owning c3sub, with an async error handler registered. -/
def c3conn : Conn :=
  { connBase with
      subs := [c3sub], hasAsyncErrorCB := true,
      InMsgs := maxChanLen, InBytes := maxChanLen }

/-- Reconnecting connection for the C7 scenario: one pending flush waiter,
one registered synchronous subscription, and a closed callback configured. -/
def c7conn : Conn :=
  { connBase with
      status := Status.RECONNECTING, connActive := false, pending := some [],
      pongs := [some 3], subs := [newSub 1 "foo" "" false],
      hasClosedCB := true }

/-- Connection that just entered the reconnect path from the connected
baseline: RECONNECTING with a fresh empty pending buffer installed. -/
def c8conn : Conn := (processReconnect connBase).1

/-- Payload one byte larger than defaultPendingSize (1 MiB). -/
def c8data : List Nat := List.replicate (defaultPendingSize + 1) 0

/-- Connection whose server-advertised max_payload is 5 bytes. -/
def c9conn : Conn := { connBase with maxPayload := 5 }

/-- Ten-byte payload, exceeding the advertised max_payload of c9conn. -/
def c9data : List Nat := List.replicate 10 0

/-- Synchronous subscription with the slow-consumer flag set, used as the
concrete NextMsg witness input. -/
def c5sub : Subscription :=
  { newSub 4 "bar" "" false with msgs := 2, bytes := 2, sc := true }

/-- C1 counterexample: replaying a registry holding one subscription with
max = 10 and delivered = 3 emits UNSUB with count 10, the original max; no
UNSUB carrying the remaining budget 7 = max - delivered is emitted, refuting
the claim that the replayed UNSUB count equals max minus delivered. -/
theorem resend_counterexample :
    c1sub.max = 10 ∧ c1sub.delivered = 3 ∧
    resendSubscriptions [c1sub] =
      [ProtoLine.sub "foo" "" 7, ProtoLine.unsub 7 (some 10)] ∧
    ProtoLine.unsub 7 (some (c1sub.max - c1sub.delivered)) ∉
      resendSubscriptions [c1sub] := by
  decide

/-- C1 (amended): the reconnect replay emits a SUB line for every
subscription in the registry and, for every subscription with max > 0, an
UNSUB line whose count is the original stored max (not max minus delivered);
moreover every UNSUB line in the replay carries the stored max of the
subscription it names. -/
theorem resend_uses_original_max (subs : List Subscription) (s : Subscription)
    (hs : s ∈ subs) :
    ProtoLine.sub s.Subject s.Queue s.sid ∈ resendSubscriptions subs ∧
    (0 < s.max → ProtoLine.unsub s.sid (some s.max) ∈ resendSubscriptions subs) ∧
    (∀ i m, ProtoLine.unsub i m ∈ resendSubscriptions subs →
      ∃ t ∈ subs, t.sid = i ∧ 0 < t.max ∧ m = some t.max) := by
  refine ⟨?_, ?_, ?_⟩
  · exact List.mem_flatMap.2 ⟨s, hs, List.mem_cons_self _ _⟩
  · intro hmax
    refine List.mem_flatMap.2 ⟨s, hs, ?_⟩
    simp [hmax]
  · intro i m hm
    rcases List.mem_flatMap.1 hm with ⟨t, ht, hin⟩
    rcases List.mem_cons.1 hin with h | h
    · cases h
    · by_cases hmax : 0 < t.max
      · simp [hmax] at h
        exact ⟨t, ht, h.1.symm, hmax, h.2⟩
      · simp [hmax] at h

/-- C1 witness: the amended theorem applied to the concrete one-subscription
registry of the counterexample scenario. -/
theorem resend_witness :
    ProtoLine.sub "foo" "" 7 ∈ resendSubscriptions [c1sub] ∧
    ProtoLine.unsub 7 (some 10) ∈ resendSubscriptions [c1sub] := by
  have h := resend_uses_original_max [c1sub] c1sub (by decide)
  exact ⟨h.1, h.2.1 (by decide)⟩

/-- C8 counterexample: with the connection reconnecting and the pending
buffer installed, publishing a payload one byte larger than
defaultPendingSize = 1 MiB succeeds (returns no error) and the full message
is appended to the writer over the pending buffer, refuting the claim that
such a write fails with a ReconnectBufExceeded error (no such error exists in
this code). -/
theorem pending_buffer_counterexample :
    c8conn.status = Status.RECONNECTING ∧
    defaultPendingSize < c8data.length ∧
    (publish c8conn "foo" "" c8data).2 = none ∧
    (publish c8conn "foo" "" c8data).1.bw =
      [ProtoLine.pub "foo" "" c8data.length c8data] := by
  refine ⟨rfl, ?_, rfl, rfl⟩
  rw [c8data, List.length_replicate]
  omega

/-- C8 (amended): while the connection is RECONNECTING, outbound writes go to
the in-memory pending buffer (through the bufio writer of size 1 MiB rebound
over it) and always succeed, whatever their size: the pending buffer is an
unbounded bytes.Buffer and no write ever fails with a buffer-exceeded error. -/
theorem pending_buffer_unbounded (nc : Conn) (subj reply : String)
    (data : List Nat) (hst : nc.status = Status.RECONNECTING) :
    (publish nc subj reply data).2 = none ∧
    (publish nc subj reply data).1.bw =
      nc.bw ++ [ProtoLine.pub subj reply data.length data] ∧
    (publish nc subj reply data).1.pending = nc.pending := by
  simp [publish, hst]

/-- C8 witness: the amended theorem applied to the reconnecting connection
and the oversized payload of the counterexample. -/
theorem pending_buffer_witness :
    (publish c8conn "foo" "" c8data).2 = none ∧
    (publish c8conn "foo" "" c8data).1.bw =
      c8conn.bw ++ [ProtoLine.pub "foo" "" c8data.length c8data] :=
  ⟨(pending_buffer_unbounded c8conn "foo" "" c8data rfl).1,
   (pending_buffer_unbounded c8conn "foo" "" c8data rfl).2.1⟩

/-- C9 counterexample: with the server-advertised max_payload at 5 bytes,
publishing a 10-byte payload returns no error and appends the full message to
the writer buffer, refuting the claim that such a publish fails before any
bytes are written. -/
theorem publish_max_payload_counterexample :
    c9conn.maxPayload = 5 ∧
    c9conn.maxPayload < (c9data.length : Int) ∧
    (publish c9conn "foo" "" c9data).2 = none ∧
    (publish c9conn "foo" "" c9data).1.bw =
      [ProtoLine.pub "foo" "" 10 c9data] := by
  decide

/-- C9 (amended): publish performs no max_payload check: on any non-closed
connection, a payload strictly longer than the server-advertised max_payload
is appended to the writer buffer in full, the out counters are bumped, and
the call returns success; enforcing max_payload is left entirely to the
server in this code. -/
theorem publish_no_max_payload_check (nc : Conn) (subj reply : String)
    (data : List Nat) (hst : nc.status ≠ Status.CLOSED)
    (_hbig : nc.maxPayload < (data.length : Int)) :
    (publish nc subj reply data).2 = none ∧
    (publish nc subj reply data).1.bw =
      nc.bw ++ [ProtoLine.pub subj reply data.length data] ∧
    (publish nc subj reply data).1.OutMsgs = nc.OutMsgs + 1 ∧
    (publish nc subj reply data).1.OutBytes = nc.OutBytes + data.length := by
  simp [publish, hst]

/-- C9 witness: the amended theorem applied to the concrete connection with
max_payload 5 and the 10-byte payload. -/
theorem publish_max_payload_witness :
    (publish c9conn "foo" "" c9data).2 = none :=
  (publish_no_max_payload_check c9conn "foo" "" c9data (by decide) (by decide)).1

/-- C5: NextMsg returns the connection-closed error when the mailbox channel
is nil; the illegal-call error when a callback is present (mailbox not nil);
the slow-consumer error, clearing the flag, when the flag was set (valid
synchronous subscription); the timeout error when the deadline timer fires
first; and the max-messages error when a receive pushes delivered past a
positive max.  The guards are listed in the order the code checks them. -/
theorem nextMsg_error_cases (s : Subscription) (ev : RecvEvent) :
    (s.mch = none → NextMsg s ev = (s, NextMsgRes.fail NatsError.connectionClosed)) ∧
    (∀ box, s.mch = some box → s.hasMcb = true →
      NextMsg s ev = (s, NextMsgRes.fail NatsError.illegalAsyncCall)) ∧
    (∀ box, s.mch = some box → s.hasMcb = false → s.connValid = true →
      s.sc = true →
      NextMsg s ev = ({ s with sc := false }, NextMsgRes.fail NatsError.slowConsumer)) ∧
    (∀ box, s.mch = some box → s.hasMcb = false → s.connValid = true →
      s.sc = false → ev = RecvEvent.timerFired →
      NextMsg s ev = (s, NextMsgRes.fail NatsError.timeout)) ∧
    (∀ m rest, s.mch = some (m :: rest) → s.hasMcb = false → s.connValid = true →
      s.sc = false → ev = RecvEvent.deliver → 0 < s.max → s.max < s.delivered + 1 →
      NextMsg s ev =
        ({ s with mch := some rest, delivered := s.delivered + 1 },
         NextMsgRes.fail NatsError.maxMessagesDelivered)) := by
  refine ⟨?_, ?_, ?_, ?_, ?_⟩
  · intro h; simp [NextMsg, h]
  · intro box hbox hmcb; simp [NextMsg, hbox, hmcb]
  · intro box hbox hmcb hcv hsc; simp [NextMsg, hbox, hmcb, hcv, hsc]
  · intro box hbox hmcb hcv hsc hev
    subst hev
    cases box <;> simp [NextMsg, hbox, hmcb, hcv, hsc]
  · intro m rest hbox hmcb hcv hsc hev hmax hexc
    subst hev
    simp [NextMsg, hbox, hmcb, hcv, hsc, hmax, hexc]

/-- C5 witness: the error-cases theorem applied to the concrete subscription
with the slow-consumer flag set: NextMsg reports the slow-consumer error and
clears the flag. -/
theorem nextMsg_error_cases_witness :
    NextMsg c5sub RecvEvent.timerFired =
      ({ c5sub with sc := false }, NextMsgRes.fail NatsError.slowConsumer) :=
  (nextMsg_error_cases c5sub RecvEvent.timerFired).2.2.1 [] rfl rfl rfl rfl

/-- C6: the PONG-waiter queue is FIFO: a FlushTimeout call with a positive
timeout on a non-closed connection appends exactly its one waiter channel to
the tail of the queue, flushes exactly one PING onto the wire, and returns no
error; and processPong on a non-empty queue removes exactly the head entry,
leaving the tail, and signals exactly the channel in that head slot (a nil
slot, voided by a timed-out flush, signals nothing).  No PONG ever consumes
more than the one head waiter. -/
theorem pong_fifo :
    (∀ (nc : Conn) (t : Int) (ch : Nat), 0 < t → nc.status ≠ Status.CLOSED →
      (flushTimeoutEnqueue nc t ch).1.pongs = nc.pongs ++ [some ch] ∧
      (flushTimeoutEnqueue nc t ch).1.wire = nc.wire ++ nc.bw ++ [ProtoLine.ping] ∧
      (flushTimeoutEnqueue nc t ch).2 = none) ∧
    (∀ (nc : Conn) (w : Option Nat) (rest : List (Option Nat)),
      nc.pongs = w :: rest →
      processPong nc = some ({ nc with pongs := rest }, w)) := by
  constructor
  · intro nc t ch ht hst
    have hnle : ¬ t ≤ 0 := not_le.2 ht
    simp [flushTimeoutEnqueue, hnle, hst]
  · intro nc w rest hq
    simp [processPong, hq]

/-- C6 witness: one flush call on the connected baseline enqueues its waiter,
and processPong on the resulting one-waiter queue pops and signals exactly
that waiter. -/
theorem pong_fifo_witness :
    (flushTimeoutEnqueue connBase 1 5).1.pongs = [some 5] ∧
    processPong { connBase with pongs := [some 5] } =
      some ({ connBase with pongs := [] }, some 5) := by
  constructor
  · have h := (pong_fifo.1 connBase 1 5 (by decide) (by decide)).1
    simpa using h
  · exact pong_fifo.2 { connBase with pongs := [some 5] } (some 5) [] rfl

/-- C7 counterexample: a reconnecting connection with one pending flush
waiter, one registered subscription with an open mailbox, and a closed
callback configured, after all DefaultMaxReconnect = 10 dial attempts fail:
the status is still RECONNECTING (not CLOSED), the flush waiter is still
queued (not released), and the subscription mailbox is still open, refuting
the claimed transition to CLOSED with waiter release, mailbox close and
closed callback. -/
theorem reconnect_exhaustion_counterexample :
    (doReconnect c7conn (List.replicate 10 DialOutcome.fail)).1.status =
      Status.RECONNECTING ∧
    ¬ (doReconnect c7conn (List.replicate 10 DialOutcome.fail)).1.status =
      Status.CLOSED ∧
    (doReconnect c7conn (List.replicate 10 DialOutcome.fail)).1.pongs = [some 3] ∧
    (doReconnect c7conn (List.replicate 10 DialOutcome.fail)).1.subs.headI.mch =
      some [] := by
  decide

/-- C7 (amended): when every dial attempt fails, doReconnect simply falls out
of its retry loop and returns with the connection state unchanged (its err
field, cleared on each attempt, was already clear): the status stays
RECONNECTING, no flush waiter is released, no subscription mailbox is closed,
and neither the reconnected nor the closed callback is invoked.  The CLOSED
transition with waiter release and mailbox close happens only in Close,
which the exhausted loop never calls. -/
theorem reconnect_exhaustion (nc : Conn) (n : Nat)
    (hst : nc.status = Status.RECONNECTING) (herr : nc.err = none) :
    doReconnect nc (List.replicate n DialOutcome.fail) = (nc, false) := by
  induction n with
  | zero => simp [doReconnect]
  | succ k ih =>
    have hnc : ({ nc with err := none } : Conn) = nc := by
      cases nc
      simp_all
    rw [List.replicate_succ]
    have hne : ¬ nc.status = Status.CLOSED := by simp [hst]
    show (if nc.status = Status.CLOSED then (nc, false)
      else doReconnect { nc with err := none } (List.replicate k DialOutcome.fail)) =
        (nc, false)
    rw [if_neg hne, hnc]
    exact ih

/-- C7 witness: the amended theorem applied to the concrete reconnecting
connection across ten failed dial attempts. -/
theorem reconnect_exhaustion_witness :
    doReconnect c7conn (List.replicate 10 DialOutcome.fail) = (c7conn, false) :=
  reconnect_exhaustion c7conn 10 rfl rfl

/-- Membership in an updated registry comes from the old registry or is the
replacement subscription itself. -/
theorem mem_updateSub {subs : List Subscription} {s2 t : Subscription}
    (h : t ∈ updateSub subs s2) : t ∈ subs ∨ t = s2 := by
  unfold updateSub at h
  rcases List.mem_map.1 h with ⟨u, hu, he⟩
  by_cases hc : (u.sid == s2.sid)
  · rw [if_pos hc] at he
    exact Or.inr he.symm
  · rw [if_neg hc] at he
    exact Or.inl (he ▸ hu)

/-- Looking up the updated sid in an updated registry finds the replacement. -/
theorem find?_updateSub {subs : List Subscription} {s s2 : Subscription} {i : Nat}
    (h : subs.find? (fun t => t.sid == i) = some s) (hsid : s2.sid = s.sid) :
    (updateSub subs s2).find? (fun t => t.sid == i) = some s2 := by
  have hi : s.sid = i := by simpa using List.find?_some h
  induction subs with
  | nil => simp at h
  | cons a tl ih =>
    by_cases ha : a.sid = i
    · rw [List.find?_cons_of_pos _ (by simpa using ha)] at h
      injection h with h
      subst h
      unfold updateSub
      rw [List.map_cons, if_pos (by simp [hsid])]
      exact List.find?_cons_of_pos _ (by simp [hsid, hi])
    · rw [List.find?_cons_of_neg _ (by simpa using ha)] at h
      have hne : ¬ (a.sid == s2.sid) = true := by
        simp [hsid, hi]
        intro hcontra
        exact ha (hcontra ▸ rfl)
      unfold updateSub
      rw [List.map_cons, if_neg hne]
      rw [List.find?_cons_of_neg _ (by simpa using ha)]
      exact ih h

/-- C4 counterexample: on the reachable state where the subscription has
max = 1 and msgs = 1 (its enqueued counter has reached max), the next
incoming message is not dropped: processMsg increments msgs to 2 and
enqueues the message, because the code compares msgs > max before the
increment, refuting the claim that messages are dropped once msgs reaches
max. -/
theorem max_drop_counterexample :
    c2subA.msgs = c2subA.max ∧ 0 < c2subA.max ∧
    (processMsg c2connA "foo" 1 "" [98]).1.subs.headI.msgs = c2subA.msgs + 1 ∧
    mlen (processMsg c2connA "foo" 1 "" [98]).1.subs.headI.mch =
      mlen c2subA.mch + 1 := by
  decide

/-- C4 (amended): once the enqueued counter of a subscription with positive
max has exceeded max (msgs reaches max + 1, which the pre-increment
comparison allows), processMsg drops every further message for it: the
registry, hence the subscription and its mailbox and counters, is unchanged,
no async error is fired, and only the connection InMsgs/InBytes counters
move. -/
theorem max_drop_behavior (nc : Conn) (subj : String) (sid : Nat) (reply : String)
    (payload : List Nat) (s : Subscription)
    (hfind : nc.subs.find? (fun t => t.sid == sid) = some s)
    (hmax : 0 < s.max) (hexc : s.max < s.msgs) :
    (processMsg nc subj sid reply payload).1.subs = nc.subs ∧
    (processMsg nc subj sid reply payload).2 = [] ∧
    (processMsg nc subj sid reply payload).1.InMsgs = nc.InMsgs + 1 := by
  have key : processMsg nc subj sid reply payload =
      ({ nc with
          InMsgs := nc.InMsgs + 1,
          InBytes := nc.InBytes + payload.length }, []) := by
    unfold processMsg
    dsimp only
    rw [hfind]
    dsimp only
    rw [if_pos ⟨hmax, hexc⟩]
  rw [key]
  exact ⟨rfl, rfl, rfl⟩

/-- C4 witness: the amended theorem applied to the reachable state where the
subscription has msgs = 2 > max = 1: a third message leaves the registry
untouched. -/
theorem max_drop_witness :
    (processMsg c2connB "foo" 1 "" [99]).1.subs = c2connB.subs ∧
    (processMsg c2connB "foo" 1 "" [99]).2 = [] := by
  have h := max_drop_behavior c2connB "foo" 1 "" [99] c2subB
    (by decide) (by decide) (by decide)
  exact ⟨h.1, h.2.1⟩

/-- C3 counterexample: delivering a 1-byte message to the subscription whose
mailbox already holds maxChanLen = 8192 messages flags the slow consumer,
fires one async error and drops the message (mailbox length stays 8192), but
the connection InMsgs/InBytes counters and the subscription msgs/bytes
counters are all incremented, refuting the claim that all user-observable
counters stay unchanged. -/
theorem slow_consumer_counterexample :
    mlen c3sub.mch = maxChanLen ∧
    (processMsg c3conn "foo" 1 "" [7]).1.InMsgs = c3conn.InMsgs + 1 ∧
    (processMsg c3conn "foo" 1 "" [7]).1.InBytes = c3conn.InBytes + 1 ∧
    (processMsg c3conn "foo" 1 "" [7]).1.subs.headI.msgs = c3sub.msgs + 1 ∧
    (processMsg c3conn "foo" 1 "" [7]).1.subs.headI.bytes = c3sub.bytes + 1 ∧
    (processMsg c3conn "foo" 1 "" [7]).1.subs.headI.sc = true ∧
    (processMsg c3conn "foo" 1 "" [7]).2 = [(1, NatsError.slowConsumer)] ∧
    mlen (processMsg c3conn "foo" 1 "" [7]).1.subs.headI.mch = maxChanLen := by
  have hfind : c3conn.subs.find? (fun t => t.sid == 1) = some c3sub := by
    rw [show c3conn.subs = [c3sub] from rfl]
    exact List.find?_cons_of_pos _ (by decide)
  have hnd : ¬(c3sub.max > 0 ∧ c3sub.msgs > c3sub.max) := by
    intro hc
    exact absurd hc.1 (by decide)
  have hbox : c3sub.mch = some (List.replicate maxChanLen c3msg) := rfl
  have hfull : (List.replicate maxChanLen c3msg).length ≥ maxChanLen := by
    rw [List.length_replicate]
  have key : processMsg c3conn "foo" 1 "" [7] =
      ({ c3conn with
          InMsgs := c3conn.InMsgs + 1,
          InBytes := c3conn.InBytes + 1,
          subs := updateSub c3conn.subs
            { c3sub with msgs := c3sub.msgs + 1, bytes := c3sub.bytes + 1, sc := true },
          err := some NatsError.slowConsumer },
       [(c3sub.sid, NatsError.slowConsumer)]) := by
    unfold processMsg processSlowConsumer
    dsimp only
    rw [hfind]
    dsimp only
    rw [if_neg hnd]
    try dsimp only
    rw [hbox]
    try dsimp only
    rw [if_pos hfull]
    try dsimp only
    simp [show c3conn.hasAsyncErrorCB = true from rfl]
  refine ⟨?_, ?_, ?_, ?_, ?_, ?_, ?_, ?_⟩
  · rw [hbox, mlen, List.length_replicate]
  · rw [key]
  · rw [key]
  · rw [key]
    rfl
  · rw [key]
    rfl
  · rw [key]
    rfl
  · rw [key]
    rfl
  · rw [key]
    show mlen c3sub.mch = maxChanLen
    rw [hbox, mlen, List.length_replicate]

/-- C3 (amended): when a message arrives for a subscription whose mailbox is
at capacity (and the max filter does not drop it first), processMsg sets the
slow-consumer flag, records ErrSlowConsumer on the connection, fires exactly
one async error to the registered handler, and drops the message (the
mailbox field of the updated subscription is unchanged) - but only after the
connection InMsgs/InBytes and the subscription msgs/bytes counters have been
incremented for the dropped message. -/
theorem slow_consumer_behavior (nc : Conn) (subj : String) (sid : Nat)
    (reply : String) (payload : List Nat) (s : Subscription) (box : List Msg)
    (hfind : nc.subs.find? (fun t => t.sid == sid) = some s)
    (hnd : ¬(s.max > 0 ∧ s.msgs > s.max))
    (hbox : s.mch = some box)
    (hfull : maxChanLen ≤ box.length)
    (hcb : nc.hasAsyncErrorCB = true) :
    (processMsg nc subj sid reply payload).2 = [(s.sid, NatsError.slowConsumer)] ∧
    (processMsg nc subj sid reply payload).1.subs.find? (fun t => t.sid == sid) =
      some { s with msgs := s.msgs + 1, bytes := s.bytes + payload.length, sc := true } ∧
    (processMsg nc subj sid reply payload).1.err = some NatsError.slowConsumer ∧
    (processMsg nc subj sid reply payload).1.InMsgs = nc.InMsgs + 1 ∧
    (processMsg nc subj sid reply payload).1.InBytes = nc.InBytes + payload.length := by
  have key : processMsg nc subj sid reply payload =
      ({ nc with
          InMsgs := nc.InMsgs + 1,
          InBytes := nc.InBytes + payload.length,
          subs := updateSub nc.subs
            { s with msgs := s.msgs + 1, bytes := s.bytes + payload.length, sc := true },
          err := some NatsError.slowConsumer },
       [(s.sid, NatsError.slowConsumer)]) := by
    unfold processMsg processSlowConsumer
    dsimp only
    rw [hfind]
    dsimp only
    rw [if_neg hnd]
    try dsimp only
    rw [hbox]
    try dsimp only
    rw [if_pos hfull]
    try dsimp only
    simp [hcb]
  rw [key]
  refine ⟨rfl, ?_, rfl, rfl, rfl⟩
  exact find?_updateSub hfind rfl

/-- C3 witness: the amended theorem applied to the concrete full-mailbox
subscription: exactly one async error is delivered and the lookup of sid 1
shows the incremented counters and the raised flag. -/
theorem slow_consumer_witness :
    (processMsg c3conn "foo" 1 "" [7]).2 = [(c3sub.sid, NatsError.slowConsumer)] ∧
    (processMsg c3conn "foo" 1 "" [7]).1.err = some NatsError.slowConsumer := by
  have h := slow_consumer_behavior c3conn "foo" 1 "" [7] c3sub
    (List.replicate maxChanLen c3msg) rfl (by decide) rfl
    (by rw [List.length_replicate]) rfl
  exact ⟨h.1, h.2.2.1⟩

/-- Preservation of the counter invariant by processMsg: an inbound message
keeps subInv for every subscription in the registry. -/
theorem subInv_processMsg (nc : Conn) (subj : String) (sid : Nat) (reply : String)
    (payload : List Nat) (hall : ∀ s ∈ nc.subs, subInv s) :
    ∀ s2 ∈ (processMsg nc subj sid reply payload).1.subs, subInv s2 := by
  intro s2 hs2
  unfold processMsg processSlowConsumer at hs2
  dsimp only at hs2
  cases hfind : nc.subs.find? (fun t => t.sid == sid) with
  | none =>
    rw [hfind] at hs2
    exact hall s2 hs2
  | some sub =>
    rw [hfind] at hs2
    dsimp only at hs2
    have hsub := hall sub (List.mem_of_find?_eq_some hfind)
    have hsub1 := hsub.1
    have hsub2 := hsub.2
    by_cases hdrop : sub.max > 0 ∧ sub.msgs > sub.max
    · rw [if_pos hdrop] at hs2
      exact hall s2 hs2
    · rw [if_neg hdrop] at hs2
      try dsimp only at hs2
      cases hmch : sub.mch with
      | none =>
        rw [hmch] at hs2
        try dsimp only at hs2
        rcases mem_updateSub hs2 with hold | hnew
        · exact hall s2 hold
        · subst hnew
          rw [hmch, mlen] at hsub1
          constructor
          · dsimp only [subInv, mlen]
            omega
          · intro hmax
            dsimp only at hmax ⊢
            omega
      | some box =>
        rw [hmch] at hs2
        try dsimp only at hs2
        rw [hmch, mlen] at hsub1
        by_cases hfull : box.length ≥ maxChanLen
        · rw [if_pos hfull] at hs2
          try dsimp only at hs2
          rcases mem_updateSub hs2 with hold | hnew
          · exact hall s2 hold
          · subst hnew
            constructor
            · dsimp only [subInv, mlen]
              omega
            · intro hmax
              dsimp only at hmax ⊢
              omega
        · rw [if_neg hfull] at hs2
          try dsimp only at hs2
          rcases mem_updateSub hs2 with hold | hnew
          · exact hall s2 hold
          · subst hnew
            constructor
            · dsimp only [subInv, mlen]
              simp only [List.length_append, List.length_cons, List.length_nil]
              omega
            · intro hmax
              dsimp only at hmax ⊢
              omega

/-- Preservation of the counter invariant by one asynchronous delivery
step. -/
theorem subInv_deliverMsgStep (s : Subscription) (h : subInv s) :
    subInv (deliverMsgStep s).1 := by
  unfold deliverMsgStep
  cases hm : s.mch with
  | none => exact h
  | some box =>
    cases box with
    | nil => exact h
    | cons m rest =>
      have h1 := h.1
      have h2 := h.2
      rw [hm, mlen] at h1
      dsimp only
      split
      · constructor
        · dsimp only [subInv, mlen]
          simp only [List.length_cons] at h1
          omega
        · exact h2
      · split <;>
        · constructor
          · dsimp only [subInv, mlen]
            simp only [List.length_cons] at h1
            omega
          · exact h2

/-- Preservation of the counter invariant by a synchronous NextMsg call. -/
theorem subInv_NextMsg (s : Subscription) (ev : RecvEvent) (h : subInv s) :
    subInv (NextMsg s ev).1 := by
  unfold NextMsg
  cases hm : s.mch with
  | none => exact h
  | some box =>
    dsimp only
    split
    · exact h
    · split
      · exact h
      · split
        · -- slow-consumer branch: only the sc flag changes
          have h1 := h.1
          rw [hm] at h1
          exact ⟨h1, h.2⟩
        · have h1 := h.1
          have h2 := h.2
          rw [hm, mlen] at h1
          split
          · -- deliver with a head message: delivered grows with the pop
            split <;>
            · constructor
              · dsimp only [subInv, mlen]
                simp only [List.length_cons] at h1
                omega
              · exact h2
          · exact h
          · exact h

/-- C2 counterexample: along the reachable run - subscribe sync,
AutoUnsubscribe(1), two inbound messages (both pass the pre-increment max
filter), two NextMsg receives - the subscription reaches delivered = 2 with
max = 1: NextMsg itself pushes delivered past max, refuting the claimed
invariant delivered ≤ max (delivered ≤ enqueued still holds here). -/
theorem sub_counters_counterexample :
    c2subC.delivered = c2subC.max ∧
    c2subD = (NextMsg c2subC RecvEvent.deliver).1 ∧
    0 < c2subD.max ∧ ¬ (c2subD.delivered ≤ c2subD.max) ∧
    c2subD.delivered ≤ c2subD.msgs := by
  decide

/-- C2 (amended): for every subscription state reachable from a freshly
created subscription by message enqueue (processMsg), asynchronous delivery
steps (deliverMsgs) and synchronous pulls (NextMsg), the invariant subInv
holds: delivered plus the mailbox backlog never exceeds the enqueued count
(hence delivered ≤ enqueued), and with positive max the enqueued count, and
so also delivered, never exceeds max + 1 (max + 1, not max: the max filter
compares before incrementing, and delivered is incremented before the max
check in both delivery paths). -/
theorem sub_counters_invariant :
    (∀ (sid : Nat) (subj queue : String) (hasCb : Bool),
      subInv (newSub sid subj queue hasCb)) ∧
    (∀ (nc : Conn) (subj : String) (sid : Nat) (reply : String) (payload : List Nat),
      (∀ s ∈ nc.subs, subInv s) →
      ∀ s2 ∈ (processMsg nc subj sid reply payload).1.subs, subInv s2) ∧
    (∀ s : Subscription, subInv s → subInv (deliverMsgStep s).1) ∧
    (∀ (s : Subscription) (ev : RecvEvent), subInv s → subInv (NextMsg s ev).1) ∧
    (∀ s : Subscription, subInv s →
      s.delivered ≤ s.msgs ∧ (0 < s.max → s.delivered ≤ s.max + 1)) := by
  refine ⟨?_, subInv_processMsg, subInv_deliverMsgStep, subInv_NextMsg, ?_⟩
  · intro sid subj queue hasCb
    constructor <;> simp [newSub, subInv, mlen]
  · intro s h
    have h1 := h.1
    have h2 := h.2
    constructor
    · omega
    · intro hmax
      have h3 := h2 hmax
      omega

/-- C2 witness: the amended invariant theorem applied to the reachable state
c2subC (delivered = 1, one message still queued, max = 1). -/
theorem sub_counters_witness :
    c2subC.delivered ≤ c2subC.msgs ∧
    (0 < c2subC.max → c2subC.delivered ≤ c2subC.max + 1) :=
  sub_counters_invariant.2.2.2.2 c2subC (by decide)

/-- Safety of the PONG path over a whole trace: if in every prefix the number
of inbound PONGs never exceeds the waiters enqueued by flush calls plus the
waiters initially queued, the unchecked head access in processPong stays in
bounds. -/
theorem runPongTrace_isSome (es : List PongEvent) :
    ∀ nc : Conn, nc.status ≠ Status.CLOSED →
      (∀ k : Nat, pongEvents (es.take k) ≤ nc.pongs.length + flushEvents (es.take k)) →
      (runPongTrace nc es).isSome := by
  induction es with
  | nil =>
    intro nc hst hbal
    simp [runPongTrace]
  | cons e tl ih =>
    intro nc hst hbal
    cases e with
    | flush ch =>
      rw [runPongTrace]
      have hstep : (flushTimeoutEnqueue nc 1 ch).1 =
          { nc with
              pongs := nc.pongs ++ [some ch],
              bw := [],
              wire := nc.wire ++ nc.bw ++ [ProtoLine.ping] } := by
        rw [flushTimeoutEnqueue, if_neg (by omega), if_neg hst]
      rw [hstep]
      apply ih
      · exact hst
      · intro k
        have hk := hbal (k + 1)
        simp only [List.take_succ_cons, pongEvents, flushEvents,
          List.length_append, List.length_cons, List.length_nil] at hk ⊢
        omega
    | pong =>
      have hne : nc.pongs ≠ [] := by
        have h1 := hbal 1
        simp only [List.take_succ_cons, List.take_zero, pongEvents, flushEvents] at h1
        intro hc
        rw [hc] at h1
        simp at h1
      rw [runPongTrace]
      cases hq : nc.pongs with
      | nil => exact absurd hq hne
      | cons w rest =>
        rw [processPong, hq]
        apply ih
        · exact hst
        · intro k
          have hk := hbal (k + 1)
          rw [hq] at hk
          simp only [List.take_succ_cons, pongEvents, flushEvents,
            List.length_cons] at hk ⊢
          omega

/-- C10: processPong reads the head of the waiter queue unconditionally, so
an inbound PONG is safe exactly when a waiter is outstanding: on an empty
queue the head access is out of bounds (the none result, a runtime panic in
Go, is reachable with a single unmatched PONG), while any trace in which no
prefix contains more PONGs than initially queued plus flush-enqueued waiters
never reaches that out-of-bounds access. -/
theorem processPong_safety :
    (∀ nc : Conn, nc.pongs = [] → processPong nc = none) ∧
    (∀ (nc : Conn) (es : List PongEvent), nc.status ≠ Status.CLOSED →
      (∀ k : Nat, pongEvents (es.take k) ≤ nc.pongs.length + flushEvents (es.take k)) →
      (runPongTrace nc es).isSome) ∧
    (∀ nc : Conn, nc.pongs = [] → runPongTrace nc [PongEvent.pong] = none) := by
  refine ⟨?_, ?_, ?_⟩
  · intro nc h
    simp [processPong, h]
  · intro nc es hst hbal
    exact runPongTrace_isSome es nc hst hbal
  · intro nc h
    simp [runPongTrace, processPong, h]

/-- C10 witness: the safety theorem applied to the connected baseline: the
balanced trace of one flush then one PONG runs safely, and a lone PONG with
no outstanding waiter reaches the out-of-bounds branch. -/
theorem processPong_safety_witness :
    (runPongTrace connBase [PongEvent.flush 9, PongEvent.pong]).isSome ∧
    runPongTrace connBase [PongEvent.pong] = none := by
  constructor
  · apply processPong_safety.2.1 connBase [PongEvent.flush 9, PongEvent.pong]
      (by decide)
    intro k
    rcases k with _ | k
    · decide
    rcases k with _ | k
    · decide
    · rw [List.take_of_length_le
        (by simp only [List.length_cons, List.length_nil]; omega)]
      decide
  · exact processPong_safety.2.2 connBase rfl

end Nats
